import Mathlib

/-!
Verification of the fs-git MCP broker ("git-enforced filesystem broker").

This file gives a shallow embedding, in Lean, of the mutation engine of the
repository (`src/mcp_server`): the commit pipeline (`tools/git_fs.py`),
subject uniqueness and collision resolution (`git_backend/commits.py`,
`git_backend/templates.py`), path containment and the path authorizer
(`git_backend/safety.py`), staged-session finalization
(`git_backend/staging.py`) and the diff/patch adapter
(`tools/integrate_code_diff.py`).

Python built-in string operations used by the source (`str.strip`,
`str.split`, `str.format`, `str.startswith`, `os.path.join`,
`os.path.normpath`) are embedded as executable Lean functions with the
Python semantics.  Every `git` subprocess is a blocking boundary in the
source; its observable outcome (captured stdout, or a
`CalledProcessError`) is modelled as an explicit input of type
`Except Unit String`, and the commands a handler would run are, where a
claim needs them, reified as a trace.
-/

namespace FsGit

/-! ## Python string primitives -/

/-- Characters stripped by Python `str.strip()` (ASCII whitespace; the
source only ever strips git stdout, which is ASCII). -/
def isPyWS (c : Char) : Bool :=
  c = ' ' || c = '\t' || c = '\n' || c = '\r' || c = '\x0b' || c = '\x0c'

/-- Embedding of `str.strip()` on a character list: drop whitespace from both ends. -/
def stripL (l : List Char) : List Char :=
  ((l.dropWhile isPyWS).reverse.dropWhile isPyWS).reverse

/-- Python `str.strip()`. -/
def pyStrip (s : String) : String := String.mk (stripL s.data)

/-- Split a character list at every separator character satisfying `p`
(Python `str.split(sep)` semantics: `"".split == ['']`, a trailing
separator yields a trailing `''`). -/
def splitPredL (p : Char → Bool) : List Char → List (List Char)
  | [] => [[]]
  | c :: rest =>
    if p c then [] :: splitPredL p rest
    else
      match splitPredL p rest with
      | h :: t => (c :: h) :: t
      | [] => [[c]]

/-- Embedding of `str.split('\n')` on a character list. -/
def splitNLL : List Char → List (List Char)
  | [] => [[]]
  | c :: rest =>
    if c = '\n' then [] :: splitNLL rest
    else
      match splitNLL rest with
      | h :: t => (c :: h) :: t
      | [] => [[c]]

/-- Python `str.split('\n')`. -/
def pySplitNL (s : String) : List String := (splitNLL s.data).map String.mk

/-- Python `str.split()` (split on whitespace runs, discarding empties),
used by the pipeline's `stdout.strip().split()[-1]`. -/
def pySplitWS (s : String) : List String :=
  ((splitPredL isPyWS s.data).map String.mk).filter (fun t => t ≠ "")

/-- Python `str.startswith`: `pyStartsWith s pre` is `s.startswith(pre)`. -/
def pyStartsWith (s pre : String) : Bool := pre.data.isPrefixOf s.data

/-- Python `needle in hay` substring test on character lists. -/
def hasSub : List Char → List Char → Bool
  | [], needle => needle.isEmpty
  | c :: rest, needle => needle.isPrefixOf (c :: rest) || hasSub rest needle

/-- Variable lookup for `str.format(**variables)`. -/
def lookupVar (vars : List (String × String)) (k : String) : Option String :=
  (vars.find? (fun p => p.1 = k)).map (fun p => p.2)

/-- Scanner state for the `str.format` embedding. -/
inductive FmtMode
  | normal
  | sawOpen
  | sawClose
  | inVar (acc : List Char)
deriving DecidableEq

/-- One `str.format` scanning step over the format string. -/
def fmtStep (vars : List (String × String)) :
    Except String (List Char × FmtMode) → Char → Except String (List Char × FmtMode)
  | .error e, _ => .error e
  | .ok (out, .normal), c =>
    if c = '{' then .ok (out, .sawOpen)
    else if c = '}' then .ok (out, .sawClose)
    else .ok (out ++ [c], .normal)
  | .ok (out, .sawOpen), c =>
    if c = '{' then .ok (out ++ ['{'], .normal)
    else if c = '}' then .error "KeyError"
    else .ok (out, .inVar [c])
  | .ok (out, .sawClose), c =>
    if c = '}' then .ok (out ++ ['}'], .normal)
    else .error "ValueError: single brace"
  | .ok (out, .inVar acc), c =>
    if c = '}' then
      match lookupVar vars (String.mk acc.reverse) with
      | some v => .ok (out ++ v.data, .normal)
      | none => .error ("KeyError: " ++ String.mk acc.reverse)
    else .ok (out, .inVar (c :: acc))

/-- Python `fmt.format(**variables)` for named `{placeholder}` templates
(the only form the broker's templates use): substitution of named keys,
`{{`/`}}` escapes, and a raised `KeyError` for a missing key. -/
def pyFormat (fmt : String) (vars : List (String × String)) : Except String String := do
  let r ← fmt.data.foldl (fmtStep vars) (.ok ([], .normal))
  match r with
  | (out, .normal) => pure (String.mk out)
  | _ => .error "ValueError: unbalanced brace"

/-! ## `git_backend/templates.py` and `git_backend/commits.py` -/

/-- Embedding of `CommitTemplate` (templates.py lines 7-11). -/
structure CommitTemplate where
  subject : String
  body : Option String := none
  trailers : List (String × String) := []
  enforce_unique_window : Nat := 100
deriving DecidableEq

/-- Join character-list lines with `'\n'` separators (no terminator). -/
def joinNLL : List (List Char) → List Char
  | [] => []
  | [x] => x
  | x :: y :: t => x ++ '\n' :: joinNLL (y :: t)

/-- Model of the stdout of `git log --oneline -<w> --format=%s` over a
repository whose commit subjects, most recent first, are `subjects`:
the first `w` subjects, each on its own line, newline-terminated. -/
def git_log_stdout (subjects : List String) (w : Nat) : String :=
  String.mk (joinNLL ((subjects.take w).map String.data) ++ ['\n'])

/-- Embedding of `check_uniqueness` (commits.py lines 20-29; templates.py lines 36-51 is
the same computation).  `logResult` is the outcome of the git subprocess:
captured stdout, or `Except.error ()` for a `CalledProcessError`.  On
success the source computes `result.stdout.strip().split('\n')` and returns
`subject not in subjects`; on error it returns `True` ("assume unique"). -/
def check_uniqueness (logResult : Except Unit String) (subject : String) : Bool :=
  match logResult with
  | .ok out => !((pySplitNL (pyStrip out)).contains subject)
  | .error _ => true

/-- The candidate string `f"{base} (#{counter})"` built by
`commits.resolve_collision`. -/
def candidate (base : String) (counter : Nat) : String :=
  base ++ " (#" ++ toString counter ++ ")"

/-- The `while not check_uniqueness(...)` loop of `commits.resolve_collision`
(commits.py lines 31-36), with explicit fuel.  The source loop terminates
because the log holds finitely many subjects while the candidates
`f"{base} (#{counter})"` are pairwise distinct; `resolve_collision` passes
fuel exceeding the log length, so the fuel case is never reached there. -/
def resolve_collision_go (logResult : Except Unit String) (base : String) :
    Nat → Nat → String
  | 0, counter => candidate base counter
  | fuel + 1, counter =>
    if check_uniqueness logResult (candidate base counter) then candidate base counter
    else resolve_collision_go logResult base fuel (counter + 1)

/-- Fuel bound for `resolve_collision`: one more than the number of lines of
the log output (all collisions live among those lines). -/
def resolve_fuel (logResult : Except Unit String) : Nat :=
  match logResult with
  | .ok out => (pySplitNL (pyStrip out)).length + 1
  | .error _ => 1

/-- Embedding of `commits.resolve_collision` (commits.py lines 31-36): starting at
counter 2, append `" (#counter)"` and increment until the candidate is
unique.  Note the suffix is appended to the *whole* incoming subject. -/
def resolve_collision (logResult : Except Unit String) (subject : String) : String :=
  resolve_collision_go logResult subject (resolve_fuel logResult) 2

/-- Parse the regex match ` \(#\d+\)$` of `templates.resolve_collision` on
the reversed character list: `')'`, one or more digits, `'#'`, `'('`, `' '`.
Returns the digit block (reversed, i.e. in print order) and the reversed
remainder (the base subject, reversed). -/
def parseRevSuffix : List Char → Option (List Char × List Char)
  | ')' :: rest =>
    let ds := rest.takeWhile Char.isDigit
    match ds, rest.dropWhile Char.isDigit with
    | [], _ => none
    | _ :: _, '#' :: '(' :: ' ' :: rest' => some (ds.reverse, rest')
    | _ :: _, _ => none
  | _ => none

/-- Digit-string to number, as Python `int(...)` on a digit block. -/
def digitsToNat (ds : List Char) : Nat :=
  ds.foldl (fun n c => n * 10 + (c.toNat - '0'.toNat)) 0

/-- Embedding of `templates.resolve_collision` (templates.py lines 53-62): if the subject
ends in ` (#n)` the counter is incremented in place, otherwise ` (#2)` is
appended.  (This variant is not the one the commit pipeline imports.) -/
def templates_resolve_collision (subject : String) : String :=
  match parseRevSuffix subject.data.reverse with
  | some (ds, restRev) =>
    String.mk restRev.reverse ++ " (#" ++ toString (digitsToNat ds + 1) ++ ")"
  | none => subject ++ " (#2)"

/-- Embedding of `lint_commit_message` (commits.py lines 9-18): render the subject
(a missing variable raises, hence `Except`), then collect the length lint
and the required-placeholder lints, in source order. -/
def lint_commit_message (template : CommitTemplate)
    (vars : List (String × String)) : Except String (Bool × List String) := do
  let subject ← pyFormat template.subject vars
  let lengthErrs := if subject.length > 72 then ["Subject exceeds 72 characters"] else []
  let required := ["{op}", "{path}", "{summary}"]
  let tokenErrs := (required.filter
      (fun t => !(hasSub template.subject.data t.data))).map
      (fun t => "Required token " ++ t ++ " missing in subject")
  let errors := lengthErrs ++ tokenErrs
  pure (errors.length = 0, errors)

/-! ## `git_backend/safety.py`: containment and the path authorizer -/

/-- Python `str.endswith`. -/
def pyEndsWith (s suf : String) : Bool := suf.data.reverse.isPrefixOf s.data.reverse

/-- Embedding of `posixpath.normpath`: collapse `//`, drop `.`, resolve `..` against
previous components (never above the root), preserving an initial `//`
exactly when the path starts with exactly two slashes. -/
def posixNormpath (path : String) : String :=
  if path = "" then "." else
  let slashes : Nat :=
    if pyStartsWith path "//" && !(pyStartsWith path "///") then 2
    else if pyStartsWith path "/" then 1 else 0
  let comps := (splitPredL (fun c => c = '/') path.data).map String.mk
  let newComps := comps.foldl (fun acc comp =>
    if comp = "" ∨ comp = "." then acc
    else if comp ≠ ".." ∨ (slashes = 0 ∧ acc = []) ∨ (acc ≠ [] ∧ acc.getLast? = some "..")
    then acc ++ [comp]
    else if acc ≠ [] then acc.dropLast
    else acc) []
  let p := String.mk (List.replicate slashes '/') ++ String.intercalate "/" newComps
  if p = "" then "." else p

/-- Embedding of `posixpath.join` for two operands, as the source always calls it. -/
def posixJoin (a b : String) : String :=
  if pyStartsWith b "/" then b
  else if a = "" || pyEndsWith a "/" then a ++ b
  else a ++ "/" ++ b

/-- Embedding of `os.path.abspath`.  Python computes `normpath(join(cwd, p))`; every call
site in the source passes a path already joined onto the repo root, which
`RepoRef.__init__` has itself passed through `os.path.abspath`, so the
argument is absolute and the `join(cwd, ·)` step is the identity. -/
def posixAbspath (p : String) : String := posixNormpath p

/-- Embedding of `enforce_path_under_root` (safety.py lines 8-12):
`abs_path = os.path.abspath(os.path.join(repo.root, path))`, then raise
unless `abs_path.startswith(repo.root)` — a *string*-prefix test. -/
def enforce_path_under_root (root path : String) : Except String String :=
  let abs_path := posixAbspath (posixJoin root path)
  if !(pyStartsWith abs_path root) then
    .error ("Path " ++ path ++ " is outside repo root " ++ root)
  else .ok abs_path

/-- The claim's containment notion, for comparison with the code:
`p` is a path-component-wise descendant of `root` — equal to the root, or
extending it at a `/` boundary. -/
def specDescendant (root p : String) : Bool :=
  p = root || pyStartsWith p (root ++ "/")

/-- Embedding of `check_dirty_tree` (safety.py lines 31-36): nonempty
`git status --porcelain` output means dirty; a failed subprocess is treated
as dirty. -/
def check_dirty_tree (statusResult : Except Unit String) : Bool :=
  match statusResult with
  | .ok out => (pyStrip out).length > 0
  | .error _ => true

/-- Embedding of `PathAuthorizer` pattern state after `__init__` (safety.py lines 57-91):
patterns classified into regex and glob lists; deny patterns stored with the
leading `!` stripped. -/
structure PathAuthorizer where
  allowed_patterns : List String
  allowed_glob_patterns : List String
  denied_patterns : List String
  denied_glob_patterns : List String
  repo_root : Option String

/-- The pattern-matching primitives that `is_path_allowed` delegates to:
`re.search`, `fnmatch.fnmatch`, the relative-path normalization at the top
of `_matches_glob` (safety.py lines 118-144), the glob-to-fnmatch rewrite
`_convert_glob_to_fnmatch`, and the `os.path.abspath`/`join` step at the top
of `is_path_allowed`.  The authorizer's decision logic is uniform in these,
so they are parameters of the embedding. -/
structure Matchers where
  search : String → String → Bool
  fnmatchFn : String → String → Bool
  relPathOf : String → String
  convert : String → String
  toAbs : String → String

/-- Embedding of `PathAuthorizer._matches_regex` (safety.py lines 242-249): some pattern's
`re.search` hits the path. -/
def matches_regex (search : String → String → Bool) (path : String)
    (pats : List String) : Bool :=
  pats.any (fun p => search p path)

/-- Embedding of `PathAuthorizer._matches_glob` (safety.py lines 109-161): compute the
relative path once, then for each pattern try `fnmatch` on it, falling back
to `fnmatch` on the full path when a repo root is set and the path lies
outside it. -/
def matches_glob (m : Matchers) (repo_root : Option String) (path : String)
    (pats : List String) : Bool :=
  let rel_path := m.relPathOf path
  pats.any (fun pattern =>
    let fp := m.convert pattern
    m.fnmatchFn rel_path fp ||
    (match repo_root with
     | some rr => if !(pyStartsWith path rr) then m.fnmatchFn path fp else false
     | none => false))

/-- Embedding of `PathAuthorizer.is_path_allowed` (safety.py lines 251-286): convert to an
absolute path; denied patterns first (regex then glob, any match denies);
then allow everything if no allow patterns are configured; then require some
allow pattern (regex or glob) to match. -/
def is_path_allowed (m : Matchers) (A : PathAuthorizer) (path : String) : Bool :=
  let abs_path := m.toAbs path
  if (!A.denied_patterns.isEmpty || !A.denied_glob_patterns.isEmpty) &&
     (matches_regex m.search abs_path A.denied_patterns ||
      matches_glob m A.repo_root abs_path A.denied_glob_patterns)
  then false
  else if A.allowed_patterns.isEmpty && A.allowed_glob_patterns.isEmpty then true
  else if matches_regex m.search abs_path A.allowed_patterns then true
  else if matches_glob m A.repo_root abs_path A.allowed_glob_patterns then true
  else false

/-! ## `tools/git_fs.py`: the commit pipeline -/

/-- The observable outcomes of the subprocess and filesystem boundary that a
single `write_and_commit` / `staged_write` call can consult.  `head_sha` (what
`git rev-parse HEAD` would print after the commit) and `file_exists` (whether
the target file exists before the write) are facts of the world that the
pipeline *could* read but observably does not. -/
structure GitWorld where
  root : String
  branch : String
  status_stdout : Except Unit String
  log_stdout : Except Unit String
  commit_stdout : String
  head_sha : String
  file_exists : Bool

/-- Embedding of `WriteRequest` (git_fs.py lines 11-28), with the source's defaults. -/
structure WriteRequest where
  path : String
  content : String
  template : CommitTemplate
  allow_create : Bool := true
  allow_overwrite : Bool := true
  op : String := "write"
  summary : String := "file write"
  reason : Option String := none
  ticket : Option String := none

/-- Embedding of `WriteResult` (git_fs.py lines 30-34). -/
structure WriteResult where
  path : String
  commit_sha : String
  branch : String
  message : String
deriving DecidableEq

/-- Embedding of `commit_result.stdout.strip().split()[-1]` (git_fs.py line 98): the last
whitespace-separated token of the captured `git commit` output.  Python's
`[-1]` raises `IndexError` on an empty list. -/
def parse_commit_sha (stdout : String) : Except String String :=
  match (pySplitWS (pyStrip stdout)).getLast? with
  | some t => .ok t
  | none => .error "IndexError"

/-- The uniqueness step of the pipeline (git_fs.py lines 87-90): if the
subject is not unique, raise when `template.enforce_unique_window` is truthy,
else auto-suffix via `resolve_collision`.  Both `check_uniqueness` and
`resolve_collision` are called *without* a window argument here, so the log
consulted is always that of `git log -100`. -/
def uniqueness_guard (logResult : Except Unit String) (enforce_unique_window : Nat)
    (subject : String) : Except String String :=
  if !check_uniqueness logResult subject then
    if enforce_unique_window ≠ 0 then
      .error ("Commit subject not unique: " ++ subject)
    else .ok (resolve_collision logResult subject)
  else .ok subject

/-- Embedding of `write_and_commit_tool` (git_fs.py lines 51-104).  The optional
authorizer is its decision function `is_path_allowed` (its internals are
embedded separately above).  Between the uniqueness step and the SHA parse
the source performs `open(abs_path, 'w').write(content)`, `git add` and
`git commit` — effects on the world; the value computed is embedded here.
Note that neither `w.file_exists` nor `r.allow_create` is consulted anywhere
on the path to the commit. -/
def write_and_commit_tool (w : GitWorld) (r : WriteRequest)
    (authorizer : Option (String → Bool)) : Except String WriteResult := do
  let abs_path ← enforce_path_under_root w.root r.path
  match authorizer with
  | some allowed =>
    if !(allowed abs_path) then
      Except.error ("Path authorization failed: Path '" ++ r.path ++ "' is not authorized")
    else pure ()
  | none => pure ()
  if check_dirty_tree w.status_stdout && !r.allow_overwrite then
    Except.error "Working tree is dirty and allow_overwrite is false"
  else pure ()
  let vars := [("op", r.op), ("path", r.path), ("summary", r.summary),
               ("reason", r.reason.getD ""), ("ticket", r.ticket.getD ""),
               ("files", ""), ("refs", "")]
  let lint ← lint_commit_message r.template vars
  if !lint.1 then Except.error "Commit message lint failed" else pure ()
  let subject0 ← pyFormat r.template.subject vars
  let subject ← uniqueness_guard w.log_stdout r.template.enforce_unique_window subject0
  let commit_sha ← parse_commit_sha w.commit_stdout
  pure { path := r.path, commit_sha := commit_sha, branch := w.branch, message := subject }

/-- Embedding of `staged_write_tool` (git_fs.py lines 119-147).  After the session lookup
and the `git checkout <work_branch>` (effects on the world), the template
variables are the fixed `{"op": "staged", "path": request.path,
"summary": "staged write"}`; the request's `op`, `summary`, `reason` and
`ticket` fields are never read.  Uniqueness here auto-suffixes
unconditionally (no strict branch). -/
def staged_write_tool (w : GitWorld) (_work_branch : String) (r : WriteRequest) :
    Except String WriteResult := do
  let _abs_path ← enforce_path_under_root w.root r.path
  let vars := [("op", "staged"), ("path", r.path), ("summary", "staged write")]
  let lint ← lint_commit_message r.template vars
  if !lint.1 then Except.error "Commit message lint failed" else pure ()
  let subject0 ← pyFormat r.template.subject vars
  let subject := if !check_uniqueness w.log_stdout subject0
    then resolve_collision w.log_stdout subject0 else subject0
  let commit_sha ← parse_commit_sha w.commit_stdout
  pure { path := r.path, commit_sha := commit_sha, branch := w.branch, message := subject }

/-! ## `git_backend/staging.py`: finalize -/

/-- Git invocations a finalize can issue (plus the ones the spec's other
strategies would need, so their absence can be stated). -/
inductive GitCmd where
  | checkout (branch : String)
  | merge_ff_only (branch : String)
  | merge_no_ff (branch : String)
  | merge_squash (branch : String)
  | rebase (branch : String)
  | commit (message : String)
  | rev_parse_head
  | branch_delete (branch : String)
deriving DecidableEq

/-- The command trace of `StagedSession.finalize` (staging.py lines 36-49)
and `finalize_session` (staging.py lines 155-168), which are the same code:
an `if strategy == "merge-ff"`, an `elif strategy == "rebase-merge"`, no
branch for any other strategy, then unconditionally `git rev-parse HEAD`
and `git branch -D <work_branch>`. -/
def finalize_cmds (strategy base_branch work_branch : String) : List GitCmd :=
  (if strategy = "merge-ff" then
    [GitCmd.checkout base_branch, GitCmd.merge_ff_only work_branch]
   else if strategy = "rebase-merge" then
    [GitCmd.checkout base_branch, GitCmd.rebase work_branch]
   else []) ++ [GitCmd.rev_parse_head, GitCmd.branch_delete work_branch]

/-- Commands that bring the work branch's commits into the checked-out
branch (any merge flavor, a rebase, or a fresh commit). -/
def GitCmd.integratesWork : GitCmd → Bool
  | .merge_ff_only _ => true
  | .merge_no_ff _ => true
  | .merge_squash _ => true
  | .rebase _ => true
  | .commit _ => true
  | _ => false

/-! ## `tools/integrate_code_diff.py`: diff generation and patch application

`preview_diff` calls `difflib.unified_diff`.  The library is embedded below
for sequences of lines: `SequenceMatcher` without junk (both inputs are far
below the 200-element autojunk threshold at every use in this development,
so no element is junk, and the post-loop junk-extension `while`s of
`find_longest_match` are no-ops — the dynamic program already returns a
maximal contiguous block). -/

/-- Lookup in the `j2len` mapping of `find_longest_match`. -/
def jGet (m : List (Nat × Nat)) (j : Nat) : Nat :=
  ((m.find? (fun p => p.1 = j)).map (fun p => p.2)).getD 0

/-- Running best match of `find_longest_match`. -/
structure FLMBest where
  besti : Nat
  bestj : Nat
  bestsize : Nat

/-- Inner loop of `find_longest_match` for one `i`: scan the `j` with
`b[j] == a[i]` (what `b2j` enumerates, in ascending order, restricted to
`[blo, bhi)`), building the new `j2len` and updating the best block. -/
def flmInner (a b : List String) (blo bhi i : Nat) (prev : List (Nat × Nat))
    (st : FLMBest) : FLMBest × List (Nat × Nat) :=
  (List.range' blo (bhi - blo)).foldl (fun acc j =>
    if b.getD j "" = a.getD i "" then
      let k := (if j = 0 then 0 else jGet prev (j - 1)) + 1
      let best := if k > acc.1.bestsize then ⟨i + 1 - k, j + 1 - k, k⟩ else acc.1
      (best, acc.2 ++ [(j, k)])
    else acc) (st, [])

/-- Embedding of `SequenceMatcher.find_longest_match` over `a[alo:ahi]` / `b[blo:bhi]`. -/
def find_longest_match (a b : List String) (alo ahi blo bhi : Nat) : Nat × Nat × Nat :=
  let res := (List.range' alo (ahi - alo)).foldl
    (fun (acc : FLMBest × List (Nat × Nat)) i => flmInner a b blo bhi i acc.2 acc.1)
    (⟨alo, blo, 0⟩, [])
  (res.1.besti, res.1.bestj, res.1.bestsize)

/-- The recursion of `get_matching_blocks` (the source uses an explicit queue
and a final sort; recursing left of the match, emitting it, then recursing
right yields the same sorted block list directly). -/
def matching_blocks_rec (a b : List String) :
    Nat → Nat → Nat → Nat → Nat → List (Nat × Nat × Nat)
  | 0, _, _, _, _ => []
  | fuel + 1, alo, ahi, blo, bhi =>
    let (i, j, k) := find_longest_match a b alo ahi blo bhi
    if k = 0 then []
    else matching_blocks_rec a b fuel alo i blo j ++
         (i, j, k) :: matching_blocks_rec a b fuel (i + k) ahi (j + k) bhi

/-- The adjacency merge at the end of `get_matching_blocks`. -/
def merge_adjacent_go (i1 j1 k1 : Nat) : List (Nat × Nat × Nat) → List (Nat × Nat × Nat)
  | [] => if k1 ≠ 0 then [(i1, j1, k1)] else []
  | (i2, j2, k2) :: rest =>
    if i1 + k1 = i2 ∧ j1 + k1 = j2 then merge_adjacent_go i1 j1 (k1 + k2) rest
    else (if k1 ≠ 0 then [(i1, j1, k1)] else []) ++ merge_adjacent_go i2 j2 k2 rest

/-- Embedding of `SequenceMatcher.get_matching_blocks`, terminator block included. -/
def get_matching_blocks (a b : List String) : List (Nat × Nat × Nat) :=
  let blocks := matching_blocks_rec a b (a.length + b.length + 1) 0 a.length 0 b.length
  merge_adjacent_go 0 0 0 blocks ++ [(a.length, b.length, 0)]

/-- Opcode tags of `SequenceMatcher.get_opcodes`. -/
inductive Tag where
  | replace
  | delete
  | insert
  | equal
deriving DecidableEq

/-- One opcode `(tag, i1, i2, j1, j2)`. -/
structure Opcode where
  tag : Tag
  i1 : Nat
  i2 : Nat
  j1 : Nat
  j2 : Nat
deriving DecidableEq

/-- Embedding of `SequenceMatcher.get_opcodes`. -/
def get_opcodes (a b : List String) : List Opcode :=
  ((get_matching_blocks a b).foldl (fun (acc : List Opcode × Nat × Nat) blk =>
      let (ai, bj, size) := blk
      let (answer, i, j) := acc
      let answer :=
        if i < ai ∧ j < bj then answer ++ [⟨Tag.replace, i, ai, j, bj⟩]
        else if i < ai then answer ++ [⟨Tag.delete, i, ai, j, bj⟩]
        else if j < bj then answer ++ [⟨Tag.insert, i, ai, j, bj⟩]
        else answer
      let answer :=
        if size ≠ 0 then answer ++ [⟨Tag.equal, ai, ai + size, bj, bj + size⟩] else answer
      (answer, ai + size, bj + size)) ([], 0, 0)).1

/-- The head fixup of `get_grouped_opcodes`: trim a leading equal run to
`n` context lines. -/
def fixHead (n : Nat) : List Opcode → List Opcode
  | ⟨Tag.equal, i1, i2, j1, j2⟩ :: rest =>
    ⟨Tag.equal, max i1 (i2 - n), i2, max j1 (j2 - n), j2⟩ :: rest
  | other => other

/-- The tail fixup of `get_grouped_opcodes`: trim a trailing equal run. -/
def fixTail (n : Nat) (codes : List Opcode) : List Opcode :=
  match codes.getLast? with
  | some ⟨Tag.equal, i1, i2, j1, j2⟩ =>
    codes.dropLast ++ [⟨Tag.equal, i1, min i2 (i1 + n), j1, min j2 (j1 + n)⟩]
  | _ => codes

/-- The grouping loop of `get_grouped_opcodes`: a large internal equal run
(`> 2n`) ends the current group with `n` trailing context lines and starts
the next with `n` leading ones; a final group that is a single equal opcode
is not yielded. -/
def group_loop (n : Nat) : List Opcode → List Opcode → List (List Opcode)
  | [], group =>
    if group ≠ [] ∧ ¬(group.length = 1 ∧ (group.headD ⟨Tag.equal, 0, 0, 0, 0⟩).tag = Tag.equal)
    then [group] else []
  | c :: rest, group =>
    if c.tag = Tag.equal ∧ c.i2 - c.i1 > n + n then
      (group ++ [⟨Tag.equal, c.i1, min c.i2 (c.i1 + n), c.j1, min c.j2 (c.j1 + n)⟩]) ::
      group_loop n rest [⟨Tag.equal, max c.i1 (c.i2 - n), c.i2, max c.j1 (c.j2 - n), c.j2⟩]
    else group_loop n rest (group ++ [c])

/-- Embedding of `SequenceMatcher.get_grouped_opcodes` with context `n`. -/
def get_grouped_opcodes (a b : List String) (n : Nat) : List (List Opcode) :=
  let codes := get_opcodes a b
  let codes := if codes = [] then [⟨Tag.equal, 0, 1, 0, 1⟩] else codes
  group_loop n (fixTail n (fixHead n codes)) []

/-- Embedding of `difflib._format_range_unified`. -/
def format_range_unified (start stop : Nat) : String :=
  let beginning := start + 1
  let length := stop - start
  if length = 1 then toString beginning
  else toString (if length = 0 then beginning - 1 else beginning) ++ "," ++ toString length

/-- Python slice `l[i1:i2]`. -/
def sliceL (l : List String) (i1 i2 : Nat) : List String := (l.drop i1).take (i2 - i1)

/-- Embedding of `difflib.unified_diff` with empty file dates and `lineterm=''`, exactly
as `preview_diff` calls it: the two file headers once if there is any group,
then per group a `@@` header and the prefixed lines. -/
def unified_diff (a b : List String) (fromfile tofile : String) (n : Nat) : List String :=
  let groups := get_grouped_opcodes a b n
  if groups.isEmpty then [] else
  ["--- " ++ fromfile, "+++ " ++ tofile] ++
  groups.flatMap (fun g =>
    let first := g.headD ⟨Tag.equal, 0, 0, 0, 0⟩
    let last := g.getLastD ⟨Tag.equal, 0, 0, 0, 0⟩
    ("@@ -" ++ format_range_unified first.i1 last.i2 ++ " +" ++
       format_range_unified first.j1 last.j2 ++ " @@") ::
    g.flatMap (fun c =>
      match c.tag with
      | Tag.equal => (sliceL a c.i1 c.i2).map (fun line => " " ++ line)
      | Tag.delete => (sliceL a c.i1 c.i2).map (fun line => "-" ++ line)
      | Tag.insert => (sliceL b c.j1 c.j2).map (fun line => "+" ++ line)
      | Tag.replace => (sliceL a c.i1 c.i2).map (fun line => "-" ++ line) ++
                       (sliceL b c.j1 c.j2).map (fun line => "+" ++ line)))

/-- Python `str.splitlines(keepends=True)` for `'\n'`-terminated text (the
only line boundary occurring in this repository's data). -/
def splitKeepNLGo (acc : List Char) : List Char → List (List Char)
  | [] => if acc.isEmpty then [] else [acc.reverse]
  | '\n' :: rest => (acc.reverse ++ ['\n']) :: splitKeepNLGo [] rest
  | c :: rest => splitKeepNLGo (c :: acc) rest

/-- Embedding of `str.splitlines(keepends=True)`. -/
def splitKeepNL (s : String) : List String := (splitKeepNLGo [] s.data).map String.mk

/-- Python `str.rstrip()`. -/
def pyRStrip (s : String) : String := String.mk (s.data.reverse.dropWhile isPyWS).reverse

/-- The `ignore_whitespace` normalization of `preview_diff`:
`'\n'.join(line.rstrip() for line in s.split('\n'))`. -/
def strip_ws_lines (s : String) : String :=
  String.intercalate "\n" ((pySplitNL s).map pyRStrip)

/-- Embedding of `preview_diff` (integrate_code_diff.py lines 9-27) as a function of the
file's current content (read from disk in the source): the unified diff
`a/path → b/path`, its lines joined with `'\n'`. -/
def preview_diff (path : String) (original modified_content : String)
    (ignore_whitespace : Bool := false) (context_lines : Nat := 3) : String :=
  let o := if ignore_whitespace then strip_ws_lines original else original
  let m := if ignore_whitespace then strip_ws_lines modified_content else modified_content
  String.intercalate "\n"
    (unified_diff (splitKeepNL o) (splitKeepNL m) ("a/" ++ path) ("b/" ++ path) context_lines)

/-- Prefix `\d+` parse for the hunk-header regex. -/
def parseNatPfx (l : List Char) : Option (Nat × List Char) :=
  let ds := l.takeWhile Char.isDigit
  if ds.isEmpty then none else some (digitsToNat ds, l.dropWhile Char.isDigit)

/-- Optional `(?:,(\d+))?` group of the hunk-header regex. -/
def parseOptComma (l : List Char) : Option Nat × List Char :=
  match l with
  | ',' :: rest =>
    match parseNatPfx rest with
    | some (n, rest') => (some n, rest')
    | none => (none, l)
  | _ => (none, l)

/-- Embedding of `re.match(r'@@ -(\d+)(?:,(\d+))? \+(\d+)(?:,(\d+))? @@', line)`
(integrate_code_diff.py line 53). -/
def parseHunkHeader (line : String) : Option (Nat × Option Nat × Nat × Option Nat) :=
  match line.data with
  | '@' :: '@' :: ' ' :: '-' :: rest =>
    match parseNatPfx rest with
    | none => none
    | some (oldStart, rest1) =>
      let (oldLen, rest2) := parseOptComma rest1
      match rest2 with
      | ' ' :: '+' :: rest3 =>
        match parseNatPfx rest3 with
        | none => none
        | some (newStart, rest4) =>
          let (newLen, rest5) := parseOptComma rest4
          match rest5 with
          | ' ' :: '@' :: '@' :: _ => some (oldStart, oldLen, newStart, newLen)
          | _ => none
      | _ => none
  | _ => none

/-- Python `list.insert(idx, x)` (clamps past-the-end indices to append). -/
def pyInsert (l : List String) (idx : Nat) (x : String) : List String :=
  l.take idx ++ x :: l.drop idx

/-- Python `list.pop(idx)` for an in-range index. -/
def pyPop (l : List String) (idx : Nat) : List String :=
  l.take idx ++ l.drop (idx + 1)

/-- The inner hunk loop of `apply_patch_and_commit` (integrate_code_diff.py
lines 65-83): consume patch lines until one starts with `@@`, `---` or
`+++`; a space line is a context check against `new_lines_list[old_idx]`
(only when `old_idx` is in range), `-` pops at `old_idx` (when in range),
`+` inserts at `old_idx`; any other line (in particular the empty artifact
lines discussed below) is skipped.  Returns the updated line list and the
unconsumed patch lines. -/
def hunk_body (ls : List String) (old_idx : Nat) :
    List String → Except String (List String × List String)
  | [] => .ok (ls, [])
  | pl :: rest =>
    if pyStartsWith pl "@@" || pyStartsWith pl "---" || pyStartsWith pl "+++" then
      .ok (ls, pl :: rest)
    else if pyStartsWith pl " " then
      if old_idx < ls.length ∧ ls.getD old_idx "" ≠ pl.drop 1 then
        .error ("Context mismatch at line " ++ toString (old_idx + 1))
      else hunk_body ls (old_idx + 1) rest
    else if pyStartsWith pl "-" then
      hunk_body (if old_idx < ls.length then pyPop ls old_idx else ls) old_idx rest
    else if pyStartsWith pl "+" then
      hunk_body (pyInsert ls old_idx (pl.drop 1)) (old_idx + 1) rest
    else hunk_body ls old_idx rest

/-- The outer scan of `apply_patch_and_commit` (integrate_code_diff.py lines
47-85): find `@@` headers, parse them, and run the hunk body starting at
`old_idx = old_start - 1` — an index into the *original* file's numbering,
applied to the already-mutated `new_lines_list`.  Each step consumes at
least one patch line, so fuel exceeding the number of lines is never
exhausted. -/
def apply_hunks (fuel : Nat) (ls : List String) (patch_lines : List String) :
    Except String (List String) :=
  match fuel, patch_lines with
  | _, [] => .ok ls
  | 0, _ => .error "fuel"
  | fuel + 1, line :: rest =>
    if pyStartsWith line "@@" then
      match parseHunkHeader line with
      | some (old_start, _, _, _) =>
        match hunk_body ls (old_start - 1) rest with
        | .error e => .error e
        | .ok (ls2, rest2) => apply_hunks fuel ls2 rest2
      | none => apply_hunks fuel ls rest
    else apply_hunks fuel ls rest

/-- The content transformation of `apply_patch_and_commit`
(integrate_code_diff.py lines 30-87): split the live file on `'\n'`, apply
the parsed hunks of `patch.strip()`, and rejoin with `'\n'` (the result is
then committed via the commit pipeline). -/
def apply_patch (content patch : String) : Except String String :=
  let lines := pySplitNL content
  let patch_lines := pySplitNL (pyStrip patch)
  (apply_hunks (patch_lines.length + 1) lines patch_lines).map
    (String.intercalate "\n")

/-! ## Concrete instances

Small concrete worlds and requests used by the closed theorems below.
They follow the spec's own end-to-end scenarios (§8): a repository with an
initial commit, the default template subject, and a plain one-file write. -/

/-- The default template's subject (assets/commit_template.default.txt). -/
def exTemplate : CommitTemplate := { subject := "[{op}] {path} – {summary}" }

/-- A benign world: clean tree, a one-commit history with subject `init`,
and the literal stdout `git commit` prints for a fresh one-file commit. -/
def exWorld : GitWorld where
  root := "/repo"
  branch := "main"
  status_stdout := .ok ""
  log_stdout := .ok (git_log_stdout ["init"] 100)
  commit_stdout := "[main abc1234] add hello\n 1 file changed, 1 insertion(+)\n create mode 100644 hello.txt"
  head_sha := "abc1234deffedc0987654321aabbccddeeff0011"
  file_exists := false

/-- A plain write request against `exWorld` with the source's defaults. -/
def exRequest : WriteRequest where
  path := "hello.txt"
  content := "Hello\n"
  template := exTemplate

/-- An eleven-line file, `L1` … `L11`. -/
def origContent : String := "L1\nL2\nL3\nL4\nL5\nL6\nL7\nL8\nL9\nL10\nL11\n"

/-- The same file with its first line deleted and its last replaced — two
edit sites more than six unchanged lines apart, so `preview_diff` emits two
hunks. -/
def newContent : String := "L2\nL3\nL4\nL5\nL6\nL7\nL8\nL9\nL10\nX\n"

/-- World identical to `exWorld` but with the target file already present. -/
def exWorldExisting : GitWorld := { exWorld with file_exists := true }

/-- Request with `allow_create = False` (file creation notionally forbidden). -/
def exRequestNoCreate : WriteRequest := { exRequest with allow_create := false }

/-- Request with `allow_overwrite = False` (overwriting notionally forbidden). -/
def exRequestNoOverwrite : WriteRequest := { exRequest with allow_overwrite := false }

/-- A staged-write request whose template variables (`op`, `summary`,
`reason`, `ticket`) are all set to non-default values. -/
def exStagedRequest : WriteRequest :=
  { exRequest with op := "add", summary := "create greeting",
                   reason := some "because", ticket := some "T-1" }

/-! ## Claim theorems -/

/-- Claim C1 (refuted — code bug).  The claim says the `commitSha` field of
an accepted `write_and_commit` equals the full SHA of `HEAD` after the
commit, as if read via `git rev-parse HEAD`.  The pipeline never runs
`rev-parse`: it returns `commit_result.stdout.strip().split()[-1]`, the last
whitespace token of the human-readable `git commit` output.  For the stock
output of a fresh one-file commit that token is the file name
`"hello.txt"`, not the 40-hex HEAD SHA of the world. -/
theorem write_and_commit_sha_not_head_sha :
    (write_and_commit_tool exWorld exRequest none).map (fun r => r.commit_sha) =
      Except.ok "hello.txt" ∧
    "hello.txt" ≠ exWorld.head_sha := by
  exact ⟨rfl, by decide⟩

/-- Claim C3 (refuted — code bug).  `finalize` has branches only for
`merge-ff` and `rebase-merge`; for `merge-no-ff` and `squash-merge` it
checks out nothing and merges nothing — the command trace is just
`git rev-parse HEAD; git branch -D <work>`, so no command that could bring
the session's commits into the base branch is ever issued, and the work
branch is deleted regardless. -/
theorem finalize_merge_no_ff_runs_no_merge :
    finalize_cmds "merge-no-ff" "main" "mcp/staged/mcp/session-abcd1234" =
      [GitCmd.rev_parse_head, GitCmd.branch_delete "mcp/staged/mcp/session-abcd1234"] ∧
    finalize_cmds "squash-merge" "main" "mcp/staged/mcp/session-abcd1234" =
      [GitCmd.rev_parse_head, GitCmd.branch_delete "mcp/staged/mcp/session-abcd1234"] ∧
    (finalize_cmds "merge-no-ff" "main" "mcp/staged/mcp/session-abcd1234").all
      (fun c => !c.integratesWork) = true := by
  refine ⟨rfl, rfl, rfl⟩

/-- Claim C4 (refuted — code bug).  The pipeline is claimed to fail with
`NotFoundError` when the file is missing and `allowCreate=false`, and with
`ConflictError` when it exists and `allowOverwrite=false`.  The code never
consults file existence or `allow_create` at all: a request with
`allow_create = false` against a world where the file does not exist still
commits (`isOk`), as does `allow_overwrite = false` against an existing
file on a clean tree. -/
theorem write_and_commit_ignores_presence_policy :
    exWorld.file_exists = false ∧ exRequestNoCreate.allow_create = false ∧
    (write_and_commit_tool exWorld exRequestNoCreate none).isOk = true ∧
    exWorldExisting.file_exists = true ∧ exRequestNoOverwrite.allow_overwrite = false ∧
    (write_and_commit_tool exWorldExisting exRequestNoOverwrite none).isOk = true := by
  refine ⟨rfl, rfl, rfl, rfl, rfl, rfl⟩

/-- Claim C7 (refuted — code bug).  Round-trip of the diff generator and
the hunk applier: it does hold for the spec's single-hunk S5 instance, but
`apply_patch_and_commit` restarts each hunk at the *original* file's line
number without offsetting earlier hunks' insertions and deletions, so the
two-hunk diff that `preview_diff` itself produces for `origContent →
newContent` (first hunk deletes a line) fails with a context mismatch
instead of producing `newContent`. -/
theorem apply_preview_diff_context_mismatch :
    apply_patch origContent (preview_diff "f.txt" origContent newContent) =
      Except.error "Context mismatch at line 8" ∧
    apply_patch "Hello, World!\n" (preview_diff "f.txt" "Hello, World!\n" "Hello, Patched!\n") =
      Except.ok "Hello, Patched!\n" := by
  exact ⟨rfl, rfl⟩

/-- Claim C2, counterexample.  `../repo2/f.txt` resolves to `/repo2/f.txt`,
which is not a path-component-wise descendant of `/repo`; the claim says
the call must fail with `AuthError`, but the string-prefix test
`"/repo2/f.txt".startswith("/repo")` succeeds, so `enforce_path_under_root`
accepts it and the pipeline would write outside the root. -/
theorem enforce_path_accepts_sibling_escape :
    enforce_path_under_root "/repo" "../repo2/f.txt" = Except.ok "/repo2/f.txt" ∧
    specDescendant "/repo" "/repo2/f.txt" = false := by
  exact ⟨rfl, by decide⟩

/-- Claim C6, counterexample.  With `enforceUniqueWindow = 1` and history
`["a", "b"]` (most recent first), the claim says the candidate `"b"` is
unique (it is not among the last 1 subject), yet the pipeline — which calls
`check_uniqueness` with its default window of 100 — judges it non-unique
and raises. -/
theorem uniqueness_check_ignores_template_window :
    check_uniqueness (Except.ok (git_log_stdout ["a", "b"] 100)) "b" = false ∧
    ¬(("b" : String) ∈ ["a", "b"].take 1) ∧
    uniqueness_guard (Except.ok (git_log_stdout ["a", "b"] 100)) 1 "b" =
      Except.error "Commit subject not unique: b" := by
  exact ⟨rfl, by decide, rfl⟩

/-- Claim C8, counterexample.  `"add readme"` is already unique in the
window (history `["init"]`), yet the pipeline's `resolve_collision` returns
`"add readme (#2)"`, not the subject itself — it is never the identity; and
on a subject that already carries a ` (#n)` suffix it stacks a second
suffix (`"fix (#2)" ↦ "fix (#2) (#2)"`) instead of incrementing. -/
theorem resolve_collision_not_identity_on_unique :
    check_uniqueness (Except.ok (git_log_stdout ["init"] 100)) "add readme" = true ∧
    resolve_collision (Except.ok (git_log_stdout ["init"] 100)) "add readme" =
      "add readme (#2)" ∧
    "add readme (#2)" ≠ "add readme" ∧
    resolve_collision (Except.ok (git_log_stdout ["init"] 100)) "fix (#2)" =
      "fix (#2) (#2)" := by
  exact ⟨rfl, rfl, by decide, rfl⟩

/-- Claim C9 (confirmed).  A staged write renders the commit subject from
the fixed variables `op="staged"`, `summary="staged write"` plus the
request's path: changing the request's `op`, `summary`, `reason` or
`ticket` fields changes nothing about the result (in particular not the
committed message), and on the default template the staged message is
literally `"[staged] <path> – staged write"`. -/
theorem staged_write_ignores_request_variables (w : GitWorld) (wb : String)
    (r : WriteRequest) (op' summary' : String) (reason' ticket' : Option String) :
    staged_write_tool w wb
      { r with op := op', summary := summary', reason := reason', ticket := ticket' } =
      staged_write_tool w wb r ∧
    (staged_write_tool exWorld "mcp/staged/mcp/T-1-abcd1234" exStagedRequest).map
      (fun x => x.message) = Except.ok "[staged] hello.txt – staged write" := by
  exact ⟨rfl, rfl⟩

/-- Claim C10 (confirmed).  When the `git log` subprocess behind the
subject-uniqueness check fails, `check_uniqueness` returns `True` ("assume
unique"), so the pipeline's uniqueness step neither raises nor rewrites the
subject, for every window setting. -/
theorem uniqueness_guard_passes_on_git_error (window : Nat) (subject : String) :
    check_uniqueness (Except.error ()) subject = true ∧
    uniqueness_guard (Except.error ()) window subject = Except.ok subject := by
  exact ⟨rfl, rfl⟩

/-- Degenerate regex matching: no patterns, no match. -/
theorem matches_regex_nil (f : String → String → Bool) (p : String) :
    matches_regex f p [] = false := rfl

/-- Degenerate glob matching: no patterns, no match. -/
theorem matches_glob_nil (m : Matchers) (rr : Option String) (p : String) :
    matches_glob m rr p [] = false := rfl

/-- Boolean normal form of `is_path_allowed`: the deny guard
`if self.denied_patterns or self.denied_glob_patterns` is redundant (with
both lists empty neither matcher can hit), after which the decision is a
pure function of the four match outcomes and allow-list emptiness. -/
theorem is_path_allowed_eq (m : Matchers) (ap agp dp dgp : List String)
    (rr : Option String) (path : String) :
    is_path_allowed m ⟨ap, agp, dp, dgp, rr⟩ path =
      !((matches_regex m.search (m.toAbs path) dp ||
         matches_glob m rr (m.toAbs path) dgp) ||
        (!(ap.isEmpty && agp.isEmpty) &&
         !(matches_regex m.search (m.toAbs path) ap ||
           matches_glob m rr (m.toAbs path) agp))) := by
  have hguard : ((!dp.isEmpty || !dgp.isEmpty) &&
      (matches_regex m.search (m.toAbs path) dp ||
       matches_glob m rr (m.toAbs path) dgp)) =
      (matches_regex m.search (m.toAbs path) dp ||
       matches_glob m rr (m.toAbs path) dgp) := by
    cases dp <;> cases dgp <;>
      simp [matches_regex_nil, matches_glob_nil]
  simp only [is_path_allowed]
  rw [hguard]
  cases hd : (matches_regex m.search (m.toAbs path) dp ||
      matches_glob m rr (m.toAbs path) dgp) <;>
    cases hE : (ap.isEmpty && agp.isEmpty) <;>
      cases ha1 : matches_regex m.search (m.toAbs path) ap <;>
        cases ha2 : matches_glob m rr (m.toAbs path) agp <;>
          simp [hd, hE, ha1, ha2]

/-- Claim C5 (confirmed).  The authorizer denies a path exactly when some
deny pattern (regex or glob) matches it, or allow patterns are configured
and none matches it; deny wins over allow, and with no allow patterns every
non-denied path is allowed.  Stated for every choice of the matching
primitives (`re.search`, `fnmatch`, the path normalizations) the decision
procedure delegates to. -/
theorem is_path_allowed_false_iff (m : Matchers) (A : PathAuthorizer) (path : String) :
    is_path_allowed m A path = false ↔
      ((matches_regex m.search (m.toAbs path) A.denied_patterns = true ∨
        matches_glob m A.repo_root (m.toAbs path) A.denied_glob_patterns = true) ∨
       ((A.allowed_patterns ≠ [] ∨ A.allowed_glob_patterns ≠ []) ∧
        ¬(matches_regex m.search (m.toAbs path) A.allowed_patterns = true ∨
          matches_glob m A.repo_root (m.toAbs path) A.allowed_glob_patterns = true))) := by
  obtain ⟨ap, agp, dp, dgp, rr⟩ := A
  rw [is_path_allowed_eq]
  cases h1 : matches_regex m.search (m.toAbs path) dp <;>
    cases h2 : matches_glob m rr (m.toAbs path) dgp <;>
      cases h3 : matches_regex m.search (m.toAbs path) ap <;>
        cases h4 : matches_glob m rr (m.toAbs path) agp <;>
          (simp [List.isEmpty_iff, Decidable.not_and_iff_or_not]; try tauto)

/-- Splitting helper: `takeWhile`/`dropWhile` across an all-satisfying block
followed by a failing character. -/
theorem takeWhile_dropWhile_append {p : Char → Bool} (l₁ : List Char) (c : Char)
    (l₂ : List Char) (h1 : ∀ x ∈ l₁, p x = true) (hc : p c = false) :
    (l₁ ++ c :: l₂).takeWhile p = l₁ ∧ (l₁ ++ c :: l₂).dropWhile p = c :: l₂ := by
  induction l₁ with
  | nil => simp [List.takeWhile_cons, List.dropWhile_cons, hc]
  | cons a t ih =>
    have ha : p a = true := h1 a (by simp)
    have ht := ih (fun x hx => h1 x (by simp [hx]))
    simp [List.takeWhile_cons, List.dropWhile_cons, ha, ht.1, ht.2]

/-- Suffix-parse of `templates.resolve_collision` on a subject that ends in
an explicit ` (#<digits>)` suffix: the digits and the base are recovered. -/
theorem parseRevSuffix_of_suffix (s : String) (ds : List Char)
    (hne : ds ≠ []) (hdig : ∀ c ∈ ds, c.isDigit = true) :
    parseRevSuffix ((s ++ " (#" ++ String.mk ds ++ ")").data.reverse) =
      some (ds, s.data.reverse) := by
  have hdata : (s ++ " (#" ++ String.mk ds ++ ")").data =
      (s.data ++ [' ', '(', '#']) ++ (ds ++ [')']) := by
    simp [String.data_append]
  have hrev : ((s.data ++ [' ', '(', '#']) ++ (ds ++ [')'])).reverse =
      ')' :: (ds.reverse ++ '#' :: '(' :: ' ' :: s.data.reverse) := by
    simp [List.reverse_append]
  have htdw := takeWhile_dropWhile_append (p := Char.isDigit) ds.reverse '#'
      ('(' :: ' ' :: s.data.reverse)
      (fun x hx => hdig x (List.mem_reverse.mp hx)) (by decide)
  obtain ⟨d, ds', hcons⟩ := List.exists_cons_of_ne_nil
      (fun h => hne (by simpa using congrArg List.reverse h) : ds.reverse ≠ [])
  rw [hdata, hrev]
  simp only [parseRevSuffix]
  rw [htdw.1, htdw.2]
  simp only [List.reverse_reverse]
  rw [hcons]
  rfl

/-- Claim C8, amended and proved.  `resolve_collision` is never the
identity: the pipeline's variant (`commits.resolve_collision`) appends a
fresh ` (#k)` counter starting at 2 — on a subject whose first candidate
`subject + " (#2)"` is unique it returns exactly that, even when `subject`
itself was already unique, and even when `subject` already ends in a
` (#n)` suffix (which therefore stacks); the `templates.py` variant
increments an existing ` (#n)` suffix to ` (#n+1)` and appends ` (#2)`
otherwise, but likewise never returns its argument unchanged. -/
theorem resolve_collision_appends_fresh_suffix
    (logResult : Except Unit String) (s : String) (ds : List Char)
    (h2 : check_uniqueness logResult (candidate s 2) = true)
    (hne : ds ≠ []) (hdig : ∀ c ∈ ds, c.isDigit = true) :
    resolve_collision logResult s = candidate s 2 ∧
    templates_resolve_collision (s ++ " (#" ++ String.mk ds ++ ")") =
      s ++ " (#" ++ toString (digitsToNat ds + 1) ++ ")" ∧
    (parseRevSuffix s.data.reverse = none →
      templates_resolve_collision s = s ++ " (#2)") := by
  refine ⟨?_, ?_, ?_⟩
  · unfold resolve_collision
    cases logResult with
    | ok out => simp [resolve_fuel, resolve_collision_go, h2]
    | error e => simp [resolve_fuel, resolve_collision_go, h2]
  · unfold templates_resolve_collision
    rw [parseRevSuffix_of_suffix s ds hne hdig]
    simp
  · intro hnone
    unfold templates_resolve_collision
    rw [hnone]

/-- Witness for `resolve_collision_appends_fresh_suffix`: history `["init"]`,
subject `"fix bug"`, digit block `"42"`. -/
theorem resolve_collision_appends_fresh_suffix_witness :
    resolve_collision (Except.ok (git_log_stdout ["init"] 100)) "fix bug" =
      candidate "fix bug" 2 ∧
    templates_resolve_collision ("fix bug" ++ " (#" ++ String.mk ['4', '2'] ++ ")") =
      "fix bug" ++ " (#" ++ toString (digitsToNat ['4', '2'] + 1) ++ ")" ∧
    (parseRevSuffix ("fix bug" : String).data.reverse = none →
      templates_resolve_collision "fix bug" = "fix bug" ++ " (#2)") :=
  resolve_collision_appends_fresh_suffix
    (Except.ok (git_log_stdout ["init"] 100)) "fix bug" ['4', '2']
    (by decide) (by decide) (by decide)

/-- Claim C2, amended and proved.  The containment check accepts exactly the
paths whose normalized absolute form has the root as a *string* prefix (the
spec's own "must begin with `R.root`" sentence), rather than the claim's
component-wise real-path descendant relation: every component-wise
descendant of the root is accepted, but — per the counterexample — so are
some escapes into sibling directories whose name extends the root's last
component, and no realpath/symlink resolution is performed. -/
theorem enforce_path_under_root_is_prefix_check (root p : String) :
    ((enforce_path_under_root root p).isOk =
      pyStartsWith (posixAbspath (posixJoin root p)) root) ∧
    (specDescendant root (posixAbspath (posixJoin root p)) = true →
      enforce_path_under_root root p =
        Except.ok (posixAbspath (posixJoin root p))) := by
  constructor
  · unfold enforce_path_under_root
    cases h : pyStartsWith (posixAbspath (posixJoin root p)) root <;>
      simp [h, Except.isOk, Except.toBool]
  · intro hd
    have hpre : pyStartsWith (posixAbspath (posixJoin root p)) root = true := by
      unfold specDescendant at hd
      rw [Bool.or_eq_true] at hd
      rcases hd with hd | hd
      · have heq : posixAbspath (posixJoin root p) = root := by simpa using hd
        rw [heq]
        unfold pyStartsWith
        exact List.isPrefixOf_iff_prefix.mpr (List.prefix_refl _)
      · unfold pyStartsWith at hd ⊢
        rw [List.isPrefixOf_iff_prefix] at hd ⊢
        refine List.IsPrefix.trans ?_ hd
        rw [String.data_append]
        exact ⟨['/'], rfl⟩
    unfold enforce_path_under_root
    simp [hpre]

/-- Witness for `enforce_path_under_root_is_prefix_check`: the ordinary
in-tree path `src/f.txt` under root `/repo`. -/
theorem enforce_path_under_root_is_prefix_check_witness :
    specDescendant "/repo" (posixAbspath (posixJoin "/repo" "src/f.txt")) = true ∧
    enforce_path_under_root "/repo" "src/f.txt" =
      Except.ok (posixAbspath (posixJoin "/repo" "src/f.txt")) :=
  ⟨by decide,
   (enforce_path_under_root_is_prefix_check "/repo" "src/f.txt").2 (by decide)⟩

/-- A character list keeps itself under `dropWhile` when its first character
fails the predicate. -/
theorem dropWhile_eq_self_of_head {p : Char → Bool} {l : List Char} {c : Char}
    (h : l.head? = some c) (hc : p c = false) : l.dropWhile p = l := by
  cases l with
  | nil => simp at h
  | cons a t =>
    simp only [List.head?_cons, Option.some.injEq] at h
    subst h
    simp [List.dropWhile_cons, hc]

/-- Head of an append with nonempty left operand. -/
theorem head?_append_left {l₁ l₂ : List Char} (h : l₁ ≠ []) :
    (l₁ ++ l₂).head? = l₁.head? := by
  cases l₁ with
  | nil => exact absurd rfl h
  | cons a t => rfl

/-- A joined line block is nonempty when its first line is. -/
theorem joinNLL_ne_nil (p : List Char) (rest : List (List Char)) (hp : p ≠ []) :
    joinNLL (p :: rest) ≠ [] := by
  cases rest with
  | nil => simpa [joinNLL] using hp
  | cons q t =>
    cases p with
    | nil => simp [joinNLL]
    | cons a b => simp [joinNLL]

/-- The first character of a joined line block is that of its first line. -/
theorem joinNLL_head? (p : List Char) (rest : List (List Char)) (hp : p ≠ []) :
    (joinNLL (p :: rest)).head? = p.head? := by
  cases rest with
  | nil => rfl
  | cons q t => simp [joinNLL, head?_append_left hp]

/-- The last character of a joined line block is that of its last line. -/
theorem joinNLL_getLast? :
    ∀ (parts : List (List Char)) (q : List Char), q ≠ [] →
      (joinNLL (parts ++ [q])).getLast? = q.getLast? := by
  intro parts
  induction parts with
  | nil => intro q _; rfl
  | cons p t ih =>
    intro q hq
    have hIH := ih q hq
    have hXs : joinNLL (t ++ [q]) ≠ [] := by
      intro h0
      rw [h0] at hIH
      have := List.getLast?_isSome.mpr hq
      rw [← hIH] at this
      simp at this
    obtain ⟨y, t', hy⟩ := List.exists_cons_of_ne_nil
      (show t ++ [q] ≠ [] by simp)
    have hstep : joinNLL ((p :: t) ++ [q]) = p ++ '\n' :: joinNLL (t ++ [q]) := by
      rw [List.cons_append, hy]
      rfl
    rw [hstep, List.getLast?_append_of_ne_nil _ (by simp),
        show ('\n' :: joinNLL (t ++ [q])) = ['\n'] ++ joinNLL (t ++ [q]) from rfl,
        List.getLast?_append_of_ne_nil _ hXs, hIH]

/-- Stripping the newline-terminated join of tidy lines recovers the join:
the first character of the first line and the last character of the last
line are not whitespace, so only the terminating `'\n'` goes. -/
theorem stripL_joinNLL (parts : List (List Char)) (hne : parts ≠ [])
    (hno : ∀ x ∈ parts, x ≠ [])
    (hhead : ∀ x ∈ parts, ∀ c, x.head? = some c → isPyWS c = false)
    (hlast : ∀ x ∈ parts, ∀ c, x.getLast? = some c → isPyWS c = false) :
    stripL (joinNLL parts ++ ['\n']) = joinNLL parts := by
  obtain ⟨p, rest, rfl⟩ := List.exists_cons_of_ne_nil hne
  have hp : p ≠ [] := hno p (by simp)
  obtain ⟨c, hc⟩ : ∃ c, p.head? = some c := by
    cases p with
    | nil => exact absurd rfl hp
    | cons a t => exact ⟨a, rfl⟩
  have hcws : isPyWS c = false := hhead p (by simp) c hc
  have hjoin_ne : joinNLL (p :: rest) ≠ [] := joinNLL_ne_nil p rest hp
  have h1 : (joinNLL (p :: rest) ++ ['\n']).dropWhile isPyWS =
      joinNLL (p :: rest) ++ ['\n'] :=
    dropWhile_eq_self_of_head
      (by rw [head?_append_left hjoin_ne, joinNLL_head? p rest hp]; exact hc) hcws
  have hq0 : (p :: rest).getLast? = some ((p :: rest).getLast (by simp)) :=
    List.getLast?_eq_getLast _ _
  set q0 := (p :: rest).getLast (by simp) with hq0def
  have hq0mem : q0 ∈ p :: rest := List.mem_of_mem_getLast? hq0
  have hq0ne : q0 ≠ [] := hno _ hq0mem
  obtain ⟨d, hd⟩ : ∃ d, q0.getLast? = some d :=
    Option.isSome_iff_exists.mp (List.getLast?_isSome.mpr hq0ne)
  have hdws : isPyWS d = false := hlast q0 hq0mem d hd
  have hparts_eq : p :: rest = (p :: rest).dropLast ++ [q0] :=
    (List.dropLast_append_getLast (by simp)).symm
  have h2 : ((joinNLL (p :: rest)).reverse).dropWhile isPyWS =
      (joinNLL (p :: rest)).reverse := by
    apply dropWhile_eq_self_of_head (c := d)
    · rw [List.head?_reverse, hparts_eq, joinNLL_getLast? _ q0 hq0ne]
      exact hd
    · exact hdws
  unfold stripL
  rw [h1, List.reverse_append]
  simp only [List.reverse_cons, List.reverse_nil, List.nil_append,
    List.singleton_append]
  rw [List.dropWhile_cons]
  simp only [show isPyWS '\n' = true from rfl, if_true]
  rw [h2, List.reverse_reverse]

/-- Splitting a newline-free character list on `'\n'` yields the single
block. -/
theorem splitNLL_of_no_newline (x : List Char) (hx : ∀ c ∈ x, c ≠ '\n') :
    splitNLL x = [x] := by
  induction x with
  | nil => rfl
  | cons c t ih =>
    have hc : c ≠ '\n' := hx c (by simp)
    have ht := ih (fun c hc => hx c (by simp [hc]))
    simp only [splitNLL]
    rw [if_neg hc, ht]

/-- Splitting after a newline-free block followed by `'\n'` peels the
block. -/
theorem splitNLL_append (x t : List Char) (hx : ∀ c ∈ x, c ≠ '\n') :
    splitNLL (x ++ '\n' :: t) = x :: splitNLL t := by
  induction x with
  | nil => simp [splitNLL]
  | cons c x' ih =>
    have hc : c ≠ '\n' := hx c (by simp)
    have hx' := ih (fun c hc => hx c (by simp [hc]))
    simp only [List.cons_append, splitNLL, List.append_eq]
    rw [if_neg hc, hx']

/-- Splitting the join of newline-free lines recovers the lines. -/
theorem splitNLL_joinNLL :
    ∀ (parts : List (List Char)), parts ≠ [] →
      (∀ x ∈ parts, ∀ c ∈ x, c ≠ '\n') →
      splitNLL (joinNLL parts) = parts := by
  intro parts
  induction parts with
  | nil => intro h; exact absurd rfl h
  | cons p t ih =>
    intro _ hno
    cases t with
    | nil =>
      show splitNLL (joinNLL [p]) = [p]
      exact splitNLL_of_no_newline p (hno p (by simp))
    | cons q t' =>
      show splitNLL (p ++ '\n' :: joinNLL (q :: t')) = p :: q :: t'
      rw [splitNLL_append p _ (hno p (by simp)),
          ih (by simp) (fun x hx c hc => hno x (by simp [hx]) c hc)]

/-- Rebuilding a string from its characters is the identity. -/
theorem mk_data (s : String) : String.mk s.data = s := rfl

/-- A tidy commit subject: nonempty, free of `'\n'`, and without leading or
trailing whitespace (what `git log --format=%s` emits for ordinary
commits; inner spaces are of course allowed). -/
def tidySubject (s : String) : Bool :=
  !s.data.isEmpty && s.data.all (fun c => c != '\n') &&
  (match s.data.head? with | some c => !isPyWS c | none => true) &&
  (match s.data.getLast? with | some c => !isPyWS c | none => true)

/-- Unpacking of `tidySubject`. -/
theorem tidySubject_spec {s : String} (h : tidySubject s = true) :
    s.data ≠ [] ∧ (∀ c ∈ s.data, c ≠ '\n') ∧
    (∀ c, s.data.head? = some c → isPyWS c = false) ∧
    (∀ c, s.data.getLast? = some c → isPyWS c = false) := by
  unfold tidySubject at h
  rw [Bool.and_eq_true, Bool.and_eq_true, Bool.and_eq_true] at h
  obtain ⟨⟨⟨h1, h2⟩, h3⟩, h4⟩ := h
  refine ⟨?_, ?_, ?_, ?_⟩
  · intro h0
    rw [h0] at h1
    simp at h1
  · intro c hc
    simpa using List.all_eq_true.mp h2 c hc
  · intro c hc
    rw [hc] at h3
    simpa using h3
  · intro c hc
    rw [hc] at h4
    simpa using h4

/-- Claim C6, amended and proved.  `check_uniqueness` called with window `w`
compares the candidate against exactly the subjects of the last `w` commits:
for a repository whose recent tidy subjects are `subjects` (newest first),
the subject is judged non-unique iff it equals one of the first `w` of
them.  The pipeline itself, however, always calls the check with its
default `w = 100` (see `write_and_commit_tool` / `uniqueness_guard`), using
the template's `enforceUniqueWindow` only as the strictness toggle — the
counterexample shows the claim's window `w = enforceUniqueWindow` reading
is false for the code. -/
theorem check_uniqueness_iff_recent_subject (subjects : List String) (w : Nat)
    (s : String) (hne : subjects.take w ≠ [])
    (htidy : ∀ x ∈ subjects.take w, tidySubject x = true) :
    (check_uniqueness (Except.ok (git_log_stdout subjects w)) s = false ↔
      s ∈ subjects.take w) := by
  have hparts_ne : (subjects.take w).map String.data ≠ [] := by simpa using hne
  have hno : ∀ x ∈ (subjects.take w).map String.data, x ≠ [] := by
    intro x hx
    obtain ⟨y, hy, rfl⟩ := List.mem_map.mp hx
    exact (tidySubject_spec (htidy y hy)).1
  have hnl : ∀ x ∈ (subjects.take w).map String.data, ∀ c ∈ x, c ≠ '\n' := by
    intro x hx c hc
    obtain ⟨y, hy, rfl⟩ := List.mem_map.mp hx
    exact (tidySubject_spec (htidy y hy)).2.1 c hc
  have hhead : ∀ x ∈ (subjects.take w).map String.data, ∀ c,
      x.head? = some c → isPyWS c = false := by
    intro x hx c hc
    obtain ⟨y, hy, rfl⟩ := List.mem_map.mp hx
    exact (tidySubject_spec (htidy y hy)).2.2.1 c hc
  have hlast : ∀ x ∈ (subjects.take w).map String.data, ∀ c,
      x.getLast? = some c → isPyWS c = false := by
    intro x hx c hc
    obtain ⟨y, hy, rfl⟩ := List.mem_map.mp hx
    exact (tidySubject_spec (htidy y hy)).2.2.2 c hc
  have hcalc : pySplitNL (pyStrip (git_log_stdout subjects w)) = subjects.take w := by
    show (splitNLL (stripL (joinNLL ((subjects.take w).map String.data) ++
        ['\n']))).map String.mk = subjects.take w
    rw [stripL_joinNLL _ hparts_ne hno hhead hlast,
        splitNLL_joinNLL _ hparts_ne hnl, List.map_map]
    have hid : String.mk ∘ String.data = id := funext fun x => rfl
    rw [hid, List.map_id]
  show (!((pySplitNL (pyStrip (git_log_stdout subjects w))).contains s)) = false ↔ _
  rw [hcalc]
  simp [List.elem_iff, List.contains]

/-- Witness for `check_uniqueness_iff_recent_subject`: window 2 over the
two-subject history `["a", "b"]` and candidate `"b"`. -/
theorem check_uniqueness_iff_recent_subject_witness :
    (check_uniqueness (Except.ok (git_log_stdout ["a", "b"] 2)) "b" = false ↔
      "b" ∈ (["a", "b"] : List String).take 2) :=
  check_uniqueness_iff_recent_subject ["a", "b"] 2 "b" (by decide) (by decide)

end FsGit
